import Mathlib

/-!
Shallow embedding of the LexiGraph job-queue and generation-cache core
(src/backend/app/models/image_generator.py and src/backend/app/utils/job_queue.py),
with theorems settling the frozen claims about that core.

The generation cache is a Python dict (insertion-ordered) from cache-key
strings to result dicts; we model it as an association list whose order is
insertion order, together with the exact Python slice semantics used by
`_manage_cache`.
-/

namespace LexiGraph

/-- Python list slice `l[:j]`: for `j ≥ 0` the first `j` elements, for `j < 0`
all but the last `-j` elements (clamped at the empty list). -/
def pySliceTo (l : List α) (j : Int) : List α :=
  if j < 0 then l.take ((l.length : Int) + j).toNat else l.take j.toNat

/-- Python `d[k] = v` on an insertion-ordered dict: if `k` is present its value
is replaced in place (its position is unchanged), otherwise `(k, v)` is
appended at the end. -/
def pyDictSet (c : List (String × V)) (k : String) (v : V) : List (String × V) :=
  if (c.map Prod.fst).contains k then
    c.map (fun kv => if kv.1 = k then (k, v) else kv)
  else
    c ++ [(k, v)]

/-- Python `del d[k]` on a dict: removes the entry with key `k`, keeping the
order of the remaining entries. -/
def pyDictDel (c : List (String × V)) (k : String) : List (String × V) :=
  c.filter (fun kv => kv.1 ≠ k)

/-- Python `k in d`. -/
def pyDictContains (c : List (String × V)) (k : String) : Bool :=
  (c.map Prod.fst).contains k

/-- Python `d[k]` as an optional read (the call sites guard with `k in d`). -/
def pyDictGet? (c : List (String × V)) (k : String) : Option V :=
  c.lookup k

/-- AdvancedImageGenerator._manage_cache (image_generator.py lines 342-348):
if the dict has grown past `cache_max_size`, delete the keys in
`list(keys)[:-cache_max_size]`, i.e. all but the most recent `cache_max_size`
ones. Note that for `cache_max_size = 0` the Python slice `[:-0]` is empty. -/
def manageCache (cache_max_size : Int) (c : List (String × V)) : List (String × V) :=
  if (c.length : Int) > cache_max_size then
    let oldest_keys := pySliceTo (c.map Prod.fst) (-cache_max_size)
    oldest_keys.foldl pyDictDel c
  else
    c

/-- The cache insertion performed after a successful generation
(image_generator.py lines 535-537): store under the key, then manage the size. -/
def putEntry (cache_max_size : Int) (c : List (String × V)) (k : String) (v : V) :
    List (String × V) :=
  manageCache cache_max_size (pyDictSet c k v)

/-- A sequence of cache insertions, in order. -/
def runPuts (cache_max_size : Int) (c : List (String × V)) (ops : List (String × V)) :
    List (String × V) :=
  ops.foldl (fun acc kv => putEntry cache_max_size acc kv.1 kv.2) c

/-- AdvancedImageGenerator.get_cache_stats (image_generator.py lines 686-691). -/
structure CacheStats where
  cache_size : Int
  cache_max_size : Int
  cache_usage : ℚ
  deriving Repr, DecidableEq

/-- get_cache_stats: count, bound, and utilization (0 when the bound is 0). -/
def getCacheStats (cache_max_size : Int) (c : List (String × V)) : CacheStats :=
  { cache_size := (c.length : Int)
    cache_max_size := cache_max_size
    cache_usage :=
      if cache_max_size > 0 then (c.length : ℚ) / (cache_max_size : ℚ) else 0 }

/-- Python `str(x)` for an `Optional[str]`: `None` renders as the text None. -/
def pyStrOptStr : Option String → String
  | none => "None"
  | some s => s

/-- Python `str(x)` for an `Optional[int]`. -/
def pyStrOptInt : Option Int → String
  | none => "None"
  | some i => toString i

/-- Decimal digits of the fraction `num / den` (`num < den`), most significant
first, stopping at an exact zero remainder or when the fuel runs out. -/
def decimalDigits : Nat → Nat → Nat → String
  | 0, _, _ => ""
  | _, 0, _ => ""
  | fuel + 1, num, den =>
    toString (num * 10 / den) ++ decimalDigits fuel (num * 10 % den) den

/-- Model of CPython `str()` on a float whose value is an exact short decimal
(the only values the guidance-scale field takes in this code): sign, integer
part, a dot, and the fractional digits, with `.0` for integral values
(`str(7.5) == "7.5"`, `str(7.0) == "7.0"`). -/
def pyFloatStr (q : ℚ) : String :=
  let sign := if q < 0 then "-" else ""
  let n := q.num.natAbs
  let d := q.den
  let frac := decimalDigits 17 (n % d) d
  sign ++ toString (n / d) ++ "." ++ (if frac = "" then "0" else frac)

/-- The nine arguments of AdvancedImageGenerator._get_cache_key
(image_generator.py lines 335-337); `negative_prompt` is a plain string there
because generate_image defaults it before deriving the key. -/
structure KeyParams where
  prompt : String
  negative_prompt : String
  width : Int
  height : Int
  num_inference_steps : Int
  guidance_scale : ℚ
  seed : Option Int
  style : Option String
  scheduler : Option String
  deriving Repr, DecidableEq

/-- The string renderings of the nine fields, in the order the f-string on
line 339 interpolates them. -/
def renders (p : KeyParams) : List String :=
  [p.prompt, p.negative_prompt, toString p.width, toString p.height,
   toString p.num_inference_steps, pyFloatStr p.guidance_scale,
   pyStrOptInt p.seed, pyStrOptStr p.style, pyStrOptStr p.scheduler]

/-- Join a list of strings with single underscores, as the f-string
`f"{a}_{b}_..."` does. -/
def joinU : List String → String
  | [] => ""
  | [s] => s
  | s :: rest => s ++ "_" ++ joinU rest

/-- The `cache_data` string built on image_generator.py line 339. -/
def cacheData (p : KeyParams) : String :=
  joinU (renders p)

/-- AdvancedImageGenerator._get_cache_key: the hex digest of `cache_data`.
The MD5 digest itself is an external library call; it is modelled as an
arbitrary function `h` of the canonical string, which every theorem either
quantifies over or instantiates. -/
def getCacheKey (h : String → String) (p : KeyParams) : String :=
  h (cacheData p)

/-! The generate_image orchestrator (image_generator.py lines 350-562).
Python result dicts hold a nested, aliasable `metadata` dict; `dict.copy()`
copies only the top level. We model this with an explicit heap of metadata
records addressed by index, so that the shallow-copy aliasing of the source is
preserved: copying a result keeps the same metadata address. -/

/-- The metadata dict of a generation result (the fields the core reads or
writes; time is modelled as abstract integer ticks). -/
structure Metadata where
  prompt : String
  negative_prompt : String
  width : Int
  height : Int
  num_inference_steps : Int
  guidance_scale : ℚ
  seed : Option Int
  generation_time : Int
  cached : Bool
  deriving Repr, DecidableEq, Inhabited

/-- A generation result dict: `success`, the image or the error, and the
address of its (shared, mutable) metadata dict. -/
structure GenResult where
  success : Bool
  image : Option String
  error : Option String
  metaRef : Nat
  deriving Repr, DecidableEq

/-- The mutable state generate_image touches: the metadata heap and the
generation cache. -/
structure GenState where
  heap : List Metadata
  cache : List (String × GenResult)
  deriving Repr, DecidableEq

/-- Allocate a fresh metadata dict, returning its address. -/
def allocMeta (st : GenState) (m : Metadata) : Nat × GenState :=
  (st.heap.length, { st with heap := st.heap ++ [m] })

/-- Mutate the metadata dict at an address in place. -/
def setMeta (st : GenState) (r : Nat) (f : Metadata → Metadata) : GenState :=
  { st with heap := st.heap.set r (f (st.heap.getD r default)) }

/-- The arguments of a generate_image call that the cache/queue core inspects;
`has_progress_callback` records whether `progress_callback` is not None. -/
structure GenRequest where
  prompt : String
  negative_prompt : Option String
  width : Int
  height : Int
  num_inference_steps : Int
  guidance_scale : ℚ
  seed : Option Int
  style : Option String
  scheduler : Option String
  has_progress_callback : Bool
  use_cache : Bool
  deriving Repr, DecidableEq

/-- The default negative prompt substituted on image_generator.py line 405. -/
def DEFAULT_NEGATIVE : String :=
  "low quality, blurry, distorted, deformed, bad anatomy, worst quality, low resolution"

/-- One entry of settings.style_presets (config.py). -/
structure StylePreset where
  positive_suffix : String
  negative_prompt : String
  deriving Repr, DecidableEq

/-- The settings fields generate_image reads. -/
structure ModelSettings where
  max_width : Int
  max_height : Int
  max_steps : Int
  max_guidance_scale : ℚ
  cache_max_size : Int
  style_presets : List (String × StylePreset)
  deriving Repr, DecidableEq

/-- Python truthiness of the `cache_key` local (None or a string). -/
def pyTruthyOptStr : Option String → Bool
  | none => false
  | some s => s ≠ ""

/-- What generate_image returns and leaves behind, plus whether the hit branch
(lines 412-417) was taken. -/
structure GenOut where
  result : GenResult
  state : GenState
  servedFromCache : Bool
  deriving Repr, DecidableEq

/-- The miss path of generate_image (lines 419-545 for a call whose pipeline
invocation yields `ext`, plus the except branch, lines 547-562): clamp the
parameters, apply the style preset, build the result dict with a fresh
metadata dict, and store a shallow copy in the cache exactly when
`use_cache and cache_key and seed is not None` (line 535) — the stored copy
shares the metadata address, as `dict.copy()` is shallow. -/
def genImageMiss (cfg : ModelSettings) (start_t finish_t : Int)
    (ext : Except String String) (st : GenState) (req : GenRequest)
    (negative0 : String) (cache_key : Option String) : GenOut :=
  let width := min (max req.width 64) cfg.max_width / 8 * 8
  let height := min (max req.height 64) cfg.max_height / 8 * 8
  let steps := min (max req.num_inference_steps 1) cfg.max_steps
  let guidance := min (max req.guidance_scale 1) cfg.max_guidance_scale
  let styled :=
    match req.style with
    | none => (req.prompt, negative0)
    | some s =>
      match (cfg.style_presets).lookup s with
      | none => (req.prompt, negative0)
      | some preset =>
        (req.prompt ++ preset.positive_suffix,
         if negative0 = DEFAULT_NEGATIVE then preset.negative_prompt else negative0)
  match ext with
  | .ok image =>
    let md : Metadata :=
      { prompt := styled.1, negative_prompt := styled.2, width := width,
        height := height, num_inference_steps := steps, guidance_scale := guidance,
        seed := req.seed, generation_time := finish_t - start_t, cached := false }
    let alloc := allocMeta st md
    let result : GenResult :=
      { success := true, image := some image, error := none, metaRef := alloc.1 }
    if req.use_cache && pyTruthyOptStr cache_key && req.seed.isSome then
      match cache_key with
      | some k =>
        { result := result
          state := { alloc.2 with
                     cache := putEntry cfg.cache_max_size alloc.2.cache k result }
          servedFromCache := false }
      | none => { result := result, state := alloc.2, servedFromCache := false }
    else
      { result := result, state := alloc.2, servedFromCache := false }
  | .error e =>
    let md : Metadata :=
      { prompt := req.prompt, negative_prompt := negative0, width := req.width,
        height := req.height, num_inference_steps := req.num_inference_steps,
        guidance_scale := req.guidance_scale, seed := req.seed,
        generation_time := finish_t - start_t, cached := false }
    let alloc := allocMeta st md
    { result := { success := false, image := none, error := some e, metaRef := alloc.1 }
      state := alloc.2
      servedFromCache := false }

/-- AdvancedImageGenerator.generate_image, cache-relevant control flow
(lines 402-562). The key is derived only when `use_cache` holds, no progress
callback was supplied, and the seed is explicit (line 409); on a hit the code
takes a shallow `.copy()` of the stored dict and sets `cached` and
`generation_time` inside its metadata dict (lines 412-417), which is the same
metadata dict the cache entry points to. -/
def genImage (h : String → String) (cfg : ModelSettings) (start_t finish_t : Int)
    (ext : Except String String) (st : GenState) (req : GenRequest) : GenOut :=
  let negative0 := req.negative_prompt.getD DEFAULT_NEGATIVE
  let cache_key : Option String :=
    if req.use_cache && !req.has_progress_callback && req.seed.isSome then
      some (getCacheKey h
        { prompt := req.prompt, negative_prompt := negative0, width := req.width,
          height := req.height, num_inference_steps := req.num_inference_steps,
          guidance_scale := req.guidance_scale, seed := req.seed,
          style := req.style, scheduler := req.scheduler })
    else none
  match cache_key with
  | some k =>
    match pyDictGet? st.cache k with
    | some entry =>
      { result := entry
        state := setMeta st entry.metaRef
          (fun m => { m with cached := true, generation_time := finish_t - start_t })
        servedFromCache := true }
    | none => genImageMiss cfg start_t finish_t ext st req negative0 (some k)
  | none => genImageMiss cfg start_t finish_t ext st req negative0 none

/-! The in-memory job queue (src/backend/app/utils/job_queue.py). -/

/-- JobStatus (job_queue.py lines 6-11). -/
inductive JStatus
  | pending
  | running
  | completed
  | failed
  | cancelled
  deriving Repr, DecidableEq

/-- A Job record (job_queue.py lines 13-25); `ρ` is the type of the target
function's return value, timestamps are abstract integer ticks. -/
structure Job (ρ : Type) where
  id : String
  status : JStatus
  created_at : Int
  started_at : Option Int
  finished_at : Option Int
  result : Option ρ
  error : Option String
  progress_pct : Int
  deriving Repr, DecidableEq

/-- Job.__init__: a fresh Pending job. -/
def newJob (id : String) (t : Int) : Job ρ :=
  { id := id, status := .pending, created_at := t, started_at := none,
    finished_at := none, result := none, error := none, progress_pct := 0 }

/-- One iteration of InMemoryJobQueue._worker on a dequeued job
(job_queue.py lines 45-60): mark Running and stamp the start time; the target
call either returns a value (stored as the result, status Completed) or raises
(the stringified exception is stored, status Failed); either way the finish
time is stamped and the loop continues. The outcome of the target call is the
`Except`: `Except.error` models a raised exception. -/
def runJob (tstart tfinish : Int) (outcome : Except String ρ) (j : Job ρ) : Job ρ :=
  let j1 := { j with status := JStatus.running, started_at := some tstart }
  match outcome with
  | .ok v =>
    { j1 with result := some v, status := JStatus.completed, finished_at := some tfinish }
  | .error e =>
    { j1 with error := some e, status := JStatus.failed, finished_at := some tfinish }

/-- The worker loop (job_queue.py lines 42-60) over a queue of jobs paired
with their call outcomes, threading a clock: each job is processed in order
and the loop reaches every queued job whatever the outcomes were. -/
def workerLoop (t : Int) : List (Except String ρ × Job ρ) → List (Job ρ)
  | [] => []
  | (o, j) :: rest => runJob t (t + 1) o j :: workerLoop (t + 2) rest

/-- The statuses a job record passes through when a worker processes it:
Pending at creation, Running at claim (line 46), then Completed (line 54) or
Failed (line 57). -/
def jobStatusTrace (outcome : Except String ρ) : List JStatus :=
  [JStatus.pending, JStatus.running,
   match outcome with
   | .ok _ => JStatus.completed
   | .error _ => JStatus.failed]

/-- The status transitions the source performs: submit creates Pending jobs,
and the only assignments to `job.status` are Running on line 46, Completed on
line 54 and Failed on line 57, always on the job the worker just dequeued or
is running. No code path assigns Cancelled or leaves a terminal status. -/
inductive statusStep : JStatus → JStatus → Prop
  | claim : statusStep JStatus.pending JStatus.running
  | complete : statusStep JStatus.running JStatus.completed
  | fail : statusStep JStatus.running JStatus.failed

/-- A sequence of statuses seen by repeated polling: between two successive
polls the worker performs zero or more transitions. -/
def PolledTrace (tr : List JStatus) : Prop :=
  List.Chain' (Relation.ReflTransGen statusStep) tr

/-- Position of a status in the lifecycle order. -/
def statusRank : JStatus → Nat
  | .pending => 0
  | .running => 1
  | .completed => 2
  | .failed => 2
  | .cancelled => 3

/-- The callback body injected by `_worker` (job_queue.py lines 49-51):
`job.progress_pct = max(0, min(100, int(pct)))`, ignoring the fraction. -/
def progressUpdate (pct : Int) : Int :=
  max 0 (min 100 pct)

/-- The recorded progress values: 0 at job creation, then after each callback
invocation the clamp of that invocation's `pct`. -/
def progressStates (pcts : List Int) : List Int :=
  pcts.scanl (fun _ pct => progressUpdate pct) 0

/-- The read-only snapshot dict built by InMemoryJobQueue.status
(job_queue.py lines 81-90). -/
structure JobSnapshot (ρ : Type) where
  id : String
  status : JStatus
  progress : Int
  result : Option ρ
  error : Option String
  created_at : Int
  started_at : Option Int
  finished_at : Option Int
  deriving Repr, DecidableEq

/-- The projection of a Job into its status snapshot. -/
def snapshotOf (j : Job ρ) : JobSnapshot ρ :=
  { id := j.id, status := j.status, progress := j.progress_pct,
    result := j.result, error := j.error, created_at := j.created_at,
    started_at := j.started_at, finished_at := j.finished_at }

/-- The id → Job mapping (`self.jobs`). -/
abbrev JobMap (ρ : Type) := List (String × Job ρ)

/-- InMemoryJobQueue.submit (job_queue.py lines 67-72), restricted to the jobs
map: record the fresh job under its id and return the id. -/
def submitJob (jobs : JobMap ρ) (j : Job ρ) : String × JobMap ρ :=
  (j.id, pyDictSet jobs j.id j)

/-- InMemoryJobQueue.status (job_queue.py lines 77-90): None for an unknown id
(a Job object is always truthy, so `if not job` is exactly the None test),
otherwise the snapshot of the stored job. -/
def queueStatus (jobs : JobMap ρ) (id : String) : Option (JobSnapshot ρ) :=
  (pyDictGet? jobs id).map snapshotOf

/-- Two string lists that agree except at exactly one position, where they
hold different strings. -/
def DiffOne (xs ys : List String) : Prop :=
  ∃ pre x y post, xs = pre ++ x :: post ∧ ys = pre ++ y :: post ∧ x ≠ y

/-- The settings values the shipped configuration yields (config.py defaults;
`cache_max_size` is not a Settings field, so `getattr` always yields 100).
The preset list is left empty: the demo request uses no style. -/
def demoSettings : ModelSettings :=
  { max_width := 1024, max_height := 1024, max_steps := 100,
    max_guidance_scale := 20, cache_max_size := 100, style_presets := [] }

/-- A fixed-seed cacheable request (the end-to-end example of the spec). -/
def demoRequest : GenRequest :=
  { prompt := "a red circle", negative_prompt := none, width := 512, height := 512,
    num_inference_steps := 20, guidance_scale := mkRat 15 2, seed := some 42,
    style := none, scheduler := none, has_progress_callback := false,
    use_cache := true }

/-- The cache key generate_image derives for demoRequest (hash instantiated
with the identity). -/
def demoKey : String :=
  getCacheKey id
    { prompt := "a red circle", negative_prompt := DEFAULT_NEGATIVE, width := 512,
      height := 512, num_inference_steps := 20, guidance_scale := mkRat 15 2,
      seed := some 42, style := none, scheduler := none }

/-- First call: cache miss, generation succeeds and the result is stored. -/
def demoOut1 : GenOut :=
  genImage id demoSettings 0 3 (Except.ok "img1") { heap := [], cache := [] } demoRequest

/-- Second, identical call against the state the first one left: a cache hit. -/
def demoOut2 : GenOut :=
  genImage id demoSettings 10 11 (Except.ok "img2") demoOut1.state demoRequest

/-- The cache-key arguments of the demo request with no style. -/
def keyParamsStyleNone : KeyParams :=
  { prompt := "a red circle", negative_prompt := DEFAULT_NEGATIVE, width := 512,
    height := 512, num_inference_steps := 20, guidance_scale := mkRat 15 2,
    seed := some 42, style := none, scheduler := none }

/-- The same arguments except that the style is the literal string None. -/
def keyParamsStyleStrNone : KeyParams :=
  { keyParamsStyleNone with style := some "None" }

/-- A generation return value with `success: False` (the shape
generate_image returns when the pipeline call raises, lines 550-562). -/
def failPayload : GenResult :=
  { success := false, image := none, error := some "generation failed", metaRef := 0 }

/-! Helper lemmas. -/

theorem str_append_cancel_left {a x y : String} (h : a ++ x = a ++ y) : x = y := by
  have h2 : a.data ++ x.data = a.data ++ y.data := by
    rw [← String.data_append, ← String.data_append, h]
  exact String.ext (List.append_cancel_left h2)

theorem str_append_cancel_right {x y a : String} (h : x ++ a = y ++ a) : x = y := by
  have h2 : x.data ++ a.data = y.data ++ a.data := by
    rw [← String.data_append, ← String.data_append, h]
  exact String.ext (List.append_cancel_right h2)

theorem joinU_cons (s : String) (rest : List String) (h : rest ≠ []) :
    joinU (s :: rest) = s ++ "_" ++ joinU rest := by
  cases rest with
  | nil => exact absurd rfl h
  | cons b l => rfl

theorem joinU_append (pre l : List String) (hp : pre ≠ []) (hl : l ≠ []) :
    joinU (pre ++ l) = joinU pre ++ "_" ++ joinU l := by
  induction pre with
  | nil => exact absurd rfl hp
  | cons a pre ih =>
    cases pre with
    | nil =>
      rw [List.singleton_append, joinU_cons a l hl]
      rfl
    | cons b pre =>
      rw [List.cons_append, joinU_cons a ((b :: pre) ++ l) (by simp),
          ih (by simp) , joinU_cons a (b :: pre) (by simp)]
      simp [String.append_assoc]

theorem joinU_cons_inj {x y : String} {post : List String}
    (h : joinU (x :: post) = joinU (y :: post)) : x = y := by
  cases post with
  | nil => exact h
  | cons b l =>
    rw [joinU_cons x (b :: l) (by simp), joinU_cons y (b :: l) (by simp)] at h
    exact str_append_cancel_right (str_append_cancel_right h)

theorem joinU_diffOne {xs ys : List String} (h : DiffOne xs ys) :
    joinU xs ≠ joinU ys := by
  rcases h with ⟨pre, x, y, post, hx, hy, hne⟩
  subst hx; subst hy
  intro heq
  apply hne
  cases pre with
  | nil => exact joinU_cons_inj heq
  | cons a pre =>
    rw [joinU_append (a :: pre) (x :: post) (by simp) (by simp),
        joinU_append (a :: pre) (y :: post) (by simp) (by simp)] at heq
    exact joinU_cons_inj (str_append_cancel_left heq)

theorem lookup_eq_none_of_not_mem {V : Type} {l : List (String × V)} {k : String}
    (h : k ∉ l.map Prod.fst) : l.lookup k = none := by
  induction l with
  | nil => rfl
  | cons hd tl ih =>
    simp only [List.map_cons, List.mem_cons] at h
    push_neg at h
    simp [List.lookup, beq_eq_false_iff_ne.mpr h.1, ih h.2]

theorem lookup_of_mem_of_nodup {V : Type} {l : List (String × V)} {kv : String × V}
    (hnd : (l.map Prod.fst).Nodup) (hm : kv ∈ l) : l.lookup kv.1 = some kv.2 := by
  induction l with
  | nil => cases hm
  | cons hd tl ih =>
    rcases List.mem_cons.mp hm with heq | hmem
    · subst heq
      simp [List.lookup]
    · have hhd : hd.1 ≠ kv.1 := by
        intro e
        have : kv.1 ∈ tl.map Prod.fst := List.mem_map_of_mem Prod.fst hmem
        rw [← e] at this
        exact (List.nodup_cons.mp (by simpa using hnd)).1 this
      have : (kv.1 == hd.1) = false := beq_eq_false_iff_ne.mpr (fun e => hhd e.symm)
      simp [List.lookup, this]
      exact ih (List.nodup_cons.mp (by simpa using hnd)).2 hmem

theorem manageCache_noop {V : Type} {m : Int} {c : List (String × V)}
    (h : (c.length : Int) ≤ m) : manageCache m c = c := by
  unfold manageCache
  rw [if_neg (by omega)]

theorem pyDictSet_fresh {V : Type} {c : List (String × V)} {k : String} {v : V}
    (h : k ∉ c.map Prod.fst) : pyDictSet c k v = c ++ [(k, v)] := by
  unfold pyDictSet
  rw [if_neg]
  simp [List.elem_iff, h]

theorem manageCache_evict_one {V : Type} {m : Int} {c : List (String × V)}
    (hnd : (c.map Prod.fst).Nodup) (hlen : (c.length : Int) = m + 1) (hm : 1 ≤ m) :
    manageCache m c = c.tail := by
  cases c with
  | nil => simp at hlen; omega
  | cons hd tl =>
    unfold manageCache
    rw [if_pos (by omega)]
    have hslice : pySliceTo ((hd :: tl).map Prod.fst) (-m) = [hd.1] := by
      unfold pySliceTo
      rw [if_pos (by omega)]
      have : (((hd :: tl).map Prod.fst).length : Int) + (-m) = 1 := by
        simp only [List.length_map]
        omega
      rw [this]
      rfl
    rw [hslice]
    show pyDictDel (hd :: tl) hd.1 = tl
    unfold pyDictDel
    rw [List.filter_cons]
    have hne : ∀ kv ∈ tl, kv.1 ≠ hd.1 := by
      intro kv hkv e
      have : hd.1 ∈ tl.map Prod.fst := by
        rw [← e]; exact List.mem_map_of_mem Prod.fst hkv
      exact (List.nodup_cons.mp (by simpa using hnd)).1 this
    simp only [ne_eq, decide_not]
    rw [if_neg (by simp)]
    exact List.filter_eq_self.mpr (fun kv hkv => by simpa using hne kv hkv)

theorem putEntry_length_le {V : Type} {m : Int} {c : List (String × V)}
    (hm : 1 ≤ m) (h : (c.length : Int) ≤ m) (k : String) (v : V) :
    ((putEntry m c k v).length : Int) ≤ m := by
  unfold putEntry pyDictSet
  by_cases hc : ((c.map Prod.fst).contains k : Bool)
  · rw [if_pos hc, manageCache_noop (by simpa using h)]
    simpa using h
  · rw [if_neg hc]
    by_cases hfits : ((c ++ [(k, v)]).length : Int) ≤ m
    · rw [manageCache_noop hfits]
      exact hfits
    · have hlen : ((c ++ [(k, v)]).length : Int) = m + 1 := by
        simp only [List.length_append, List.length_cons, List.length_nil] at hfits ⊢
        omega
      unfold manageCache
      rw [if_pos (by omega)]
      have hcne : c ≠ [] := by
        intro e
        subst e
        simp at hlen
        omega
      have hslice : pySliceTo ((c ++ [(k, v)]).map Prod.fst) (-m) = [(c.map Prod.fst).headI] := by
        unfold pySliceTo
        rw [if_pos (by omega)]
        have h1 : ((((c ++ [(k, v)]).map Prod.fst).length) : Int) + (-m) = 1 := by
          simp only [List.length_map]
          omega
        rw [h1]
        show List.take 1 ((c ++ [(k, v)]).map Prod.fst) = _
        cases c with
        | nil => exact absurd rfl hcne
        | cons hd tl => rfl
      rw [hslice]
      show ((pyDictDel (c ++ [(k, v)]) (c.map Prod.fst).headI).length : Int) ≤ m
      have hmem : ∃ x ∈ c ++ [(k, v)], ¬ (decide (x.1 ≠ (c.map Prod.fst).headI) = true) := by
        cases c with
        | nil => exact absurd rfl hcne
        | cons hd tl =>
          refine ⟨hd, by simp, ?_⟩
          simp
      have := List.length_filter_lt_length_iff_exists
        (l := c ++ [(k, v)]) (p := fun kv => decide (kv.1 ≠ (c.map Prod.fst).headI))
      unfold pyDictDel
      have hlt := this.mpr (by simpa using hmem)
      omega

theorem runPuts_no_evict {V : Type} {m : Int} :
    ∀ (ops c : List (String × V)),
      ((c ++ ops).map Prod.fst).Nodup →
      ((c.length + ops.length : Int)) ≤ m →
      runPuts m c ops = c ++ ops := by
  intro ops
  induction ops with
  | nil => intro c _ _; simp [runPuts]
  | cons hd tl ih =>
    intro c hnd hlen
    show runPuts m (putEntry m c hd.1 hd.2) tl = c ++ hd :: tl
    have hfresh : hd.1 ∉ c.map Prod.fst := by
      intro hmem
      have h1 : hd.1 ∈ ((c ++ hd :: tl).map Prod.fst) := by
        simp
      have := List.nodup_append.mp (by simpa using hnd)
      exact this.2.2 (by simpa using hmem) (by simp)
    have hset : putEntry m c hd.1 hd.2 = c ++ [hd] := by
      unfold putEntry
      rw [pyDictSet_fresh hfresh, manageCache_noop]
      simp only [List.length_append, List.length_cons, List.length_nil]
      push_cast
      simp at hlen
      omega
    rw [hset]
    have : (c ++ [hd]) ++ tl = c ++ hd :: tl := by simp
    rw [← this]
    apply ih
    · simpa using hnd
    · simp only [List.length_append, List.length_cons, List.length_nil]
      push_cast
      simp at hlen
      omega

/-! Claim C1: cache bound. -/

/-- Claim C1 counterexample: the claim quantifies over every value of
cache_max_size, but at cache_max_size = 0 a single insertion leaves one entry
in the cache: `_manage_cache` deletes the keys in `list(keys)[:-0]`, and the
Python slice `[:-0]` is empty, so nothing is ever evicted and the bound
`count <= 0` fails after the very first put. -/
theorem cache_bound_fails_at_zero_max :
    (getCacheStats 0 (runPuts 0 ([] : List (String × Nat)) [("k", 1)])).cache_size = 1 ∧
    ¬ (getCacheStats 0 (runPuts 0 ([] : List (String × Nat)) [("k", 1)])).cache_size ≤ 0 := by
  decide

/-- Claim C1 (amended to cache_max_size ≥ 1, the shipped value being 100):
after any sequence of put operations starting from the empty cache, the number
of entries reported by the cache stats is at most cache_max_size; eviction is
synchronous, inside the insertion itself, so the bound holds after every
prefix of the sequence as well. -/
theorem cache_bound_invariant {V : Type} (m : Int) (hm : 1 ≤ m)
    (ops : List (String × V)) :
    (getCacheStats m (runPuts m ([] : List (String × V)) ops)).cache_size ≤ m := by
  suffices h : ∀ (l c : List (String × V)), (c.length : Int) ≤ m →
      ((runPuts m c l).length : Int) ≤ m by
    simpa [getCacheStats] using h ops [] (by simp; omega)
  intro l
  induction l with
  | nil => intro c h; simpa [runPuts] using h
  | cons hd tl ih =>
    intro c h
    show ((runPuts m (putEntry m c hd.1 hd.2) tl).length : Int) ≤ m
    exact ih _ (putEntry_length_le hm h hd.1 hd.2)

/-- Witness for the amended C1 theorem at cache_max_size 1 and two puts. -/
theorem cache_bound_invariant_witness :
    (getCacheStats 1 (runPuts 1 ([] : List (String × Nat)) [("a", 1), ("b", 2)])).cache_size ≤ 1 :=
  cache_bound_invariant 1 (by decide) [("a", 1), ("b", 2)]

/-! Claim C5: FIFO eviction. -/

/-- Claim C5: for every cache_max_size ≥ 1, inserting cache_max_size + 1
entries with distinct keys into the empty cache leaves the first-inserted key
absent and every later-inserted key still present with its value: the oldest
inserted entry is evicted first. -/
theorem cache_fifo_eviction {V : Type} (m : Int) (ops : List (String × V))
    (hm : 1 ≤ m) (hlen : (ops.length : Int) = m + 1)
    (hnd : (ops.map Prod.fst).Nodup) :
    (∀ kv0 ∈ ops.head?, pyDictContains (runPuts m ([] : List (String × V)) ops) kv0.1 = false) ∧
    (∀ kv ∈ ops.tail, pyDictGet? (runPuts m ([] : List (String × V)) ops) kv.1 = some kv.2) := by
  have hops_ne : ops ≠ [] := by
    intro e; subst e; simp at hlen; omega
  have hres : runPuts m ([] : List (String × V)) ops = ops.tail := by
    obtain ⟨init, last, hsplit⟩ : ∃ init last, ops = init ++ [last] :=
      ⟨ops.dropLast, ops.getLast hops_ne, (List.dropLast_append_getLast hops_ne).symm⟩
    subst hsplit
    have hinit_len : (init.length : Int) = m := by
      simp only [List.length_append, List.length_cons, List.length_nil] at hlen
      push_cast at hlen ⊢
      omega
    have hfold : runPuts m ([] : List (String × V)) (init ++ [last]) =
        putEntry m (runPuts m ([] : List (String × V)) init) last.1 last.2 := by
      unfold runPuts
      rw [List.foldl_append]
      rfl
    have hinit : runPuts m ([] : List (String × V)) init = init := by
      have := runPuts_no_evict (m := m) init ([] : List (String × V))
        (by simpa using (List.nodup_append.mp (by simpa using hnd)).1)
      simpa using this (by simp; omega)
    rw [hfold, hinit]
    have hfresh : last.1 ∉ init.map Prod.fst := by
      intro hmem
      have hsplitnd := List.nodup_append.mp (by simpa using hnd)
      exact hsplitnd.2.2 (by simpa using hmem) (by simp)
    unfold putEntry
    rw [pyDictSet_fresh hfresh]
    exact manageCache_evict_one hnd (by simp; omega) hm
  rw [hres]
  cases ops with
  | nil => exact absurd rfl hops_ne
  | cons hd rest =>
    have hnc := List.nodup_cons.mp
      (show (hd.1 :: rest.map Prod.fst).Nodup from hnd)
    constructor
    · intro kv0 hin
      have heq : hd = kv0 := by simpa using hin
      subst heq
      show ((rest.map Prod.fst).contains hd.1) = false
      exact Bool.eq_false_iff.mpr (fun htrue => hnc.1 (List.elem_iff.mp htrue))
    · intro kv hkv
      exact lookup_of_mem_of_nodup hnc.2 hkv

/-- Witness for the C5 theorem at cache_max_size 2 and three distinct keys. -/
theorem cache_fifo_eviction_witness :
    pyDictContains (runPuts 2 ([] : List (String × Nat)) [("a", 1), ("b", 2), ("c", 3)]) "a" = false ∧
    pyDictGet? (runPuts 2 ([] : List (String × Nat)) [("a", 1), ("b", 2), ("c", 3)]) "b" = some 2 := by
  have h := cache_fifo_eviction (V := Nat) 2 [("a", 1), ("b", 2), ("c", 3)]
    (by decide) (by decide) (by decide)
  exact ⟨h.1 ("a", 1) rfl, h.2 ("b", 2) (by decide)⟩

/-! Claim C2: cache bypass on random seed. -/

/-- Claim C2: a generation request whose seed is absent is neither served from
the generation cache nor written into it — the key-derivation guard on
line 409 requires an explicit seed, so no cache key exists, the hit branch
cannot fire, and the store guard on line 535 fails. -/
theorem cache_bypass_on_random_seed
    (h : String → String) (cfg : ModelSettings) (t1 t2 : Int)
    (ext : Except String String) (st : GenState) (req : GenRequest)
    (hseed : req.seed = none) :
    (genImage h cfg t1 t2 ext st req).servedFromCache = false ∧
    (genImage h cfg t1 t2 ext st req).state.cache = st.cache := by
  unfold genImage genImageMiss
  cases ext <;> simp [hseed, pyTruthyOptStr, allocMeta]

/-- Witness for the C2 theorem: a concrete seedless request on the empty
state is not served from the cache and leaves the cache empty. -/
theorem cache_bypass_on_random_seed_witness :
    (genImage id demoSettings 0 3 (Except.ok "img1") { heap := [], cache := [] }
      { demoRequest with seed := none }).servedFromCache = false ∧
    (genImage id demoSettings 0 3 (Except.ok "img1") { heap := [], cache := [] }
      { demoRequest with seed := none }).state.cache = [] :=
  cache_bypass_on_random_seed id demoSettings 0 3 (Except.ok "img1")
    { heap := [], cache := [] } { demoRequest with seed := none } rfl

/-! Claim C10: cache bypass when a progress callback is supplied. -/

/-- Claim C10: a generation request that supplies a progress callback bypasses
the cache entirely — the guard on line 409 also requires `progress_callback is
None`, so no key is derived, nothing is read, and nothing is stored, even with
an explicit seed and use_cache true. -/
theorem progress_callback_bypasses_cache
    (h : String → String) (cfg : ModelSettings) (t1 t2 : Int)
    (ext : Except String String) (st : GenState) (req : GenRequest)
    (hcb : req.has_progress_callback = true) :
    (genImage h cfg t1 t2 ext st req).servedFromCache = false ∧
    (genImage h cfg t1 t2 ext st req).state.cache = st.cache := by
  unfold genImage genImageMiss
  cases ext <;> simp [hcb, pyTruthyOptStr, allocMeta]

/-- Witness for the C10 theorem: the demo request with a callback attached,
explicit seed 42 and use_cache true still bypasses the cache. -/
theorem progress_callback_bypasses_cache_witness :
    (genImage id demoSettings 0 3 (Except.ok "img1") { heap := [], cache := [] }
      { demoRequest with has_progress_callback := true }).servedFromCache = false ∧
    (genImage id demoSettings 0 3 (Except.ok "img1") { heap := [], cache := [] }
      { demoRequest with has_progress_callback := true }).state.cache = [] :=
  progress_callback_bypasses_cache id demoSettings 0 3 (Except.ok "img1")
    { heap := [], cache := [] } { demoRequest with has_progress_callback := true } rfl

/-! Claim C6: the cached marker and the stored entry. -/

/-- Claim C6, evaluated at the failing input: after one successful fixed-seed
generation the stored entry's metadata has cached = false, but serving one
cache hit for the identical request flips the stored entry's metadata to
cached = true: line 414 takes a shallow `dict.copy()`, so the copy's
`metadata` is the same dict object as the stored entry's, and line 415
mutates it. The claim says the stored entry's marker always stays false. -/
theorem shallow_copy_mutates_stored_metadata :
    demoOut1.servedFromCache = false ∧
    ((pyDictGet? demoOut1.state.cache demoKey).map
      (fun e => (demoOut1.state.heap.getD e.metaRef default).cached)) = some false ∧
    demoOut2.servedFromCache = true ∧
    (demoOut2.state.heap.getD demoOut2.result.metaRef default).cached = true ∧
    ((pyDictGet? demoOut2.state.cache demoKey).map
      (fun e => (demoOut2.state.heap.getD e.metaRef default).cached)) = some true := by
  decide

/-! Claim C8: key derivation. -/

/-- Claim C8 counterexample: two parameter sets that differ in exactly one
field — style None versus the literal string None — render to the same
`cache_data` string, hence the same cache key under any digest: the f-string
interpolation of Python None coincides with the string None. -/
theorem derive_collision_none_style :
    keyParamsStyleNone ≠ keyParamsStyleStrNone ∧
    keyParamsStyleNone.style ≠ keyParamsStyleStrNone.style ∧
    keyParamsStyleNone.prompt = keyParamsStyleStrNone.prompt ∧
    keyParamsStyleNone.negative_prompt = keyParamsStyleStrNone.negative_prompt ∧
    keyParamsStyleNone.width = keyParamsStyleStrNone.width ∧
    keyParamsStyleNone.height = keyParamsStyleStrNone.height ∧
    keyParamsStyleNone.num_inference_steps = keyParamsStyleStrNone.num_inference_steps ∧
    keyParamsStyleNone.guidance_scale = keyParamsStyleStrNone.guidance_scale ∧
    keyParamsStyleNone.seed = keyParamsStyleStrNone.seed ∧
    keyParamsStyleNone.scheduler = keyParamsStyleStrNone.scheduler ∧
    cacheData keyParamsStyleNone = cacheData keyParamsStyleStrNone ∧
    getCacheKey id keyParamsStyleNone = getCacheKey id keyParamsStyleStrNone := by
  decide

/-- Claim C8 (amended): key derivation is a pure function, so field-wise
equal parameter sets yield the same key; and two parameter sets whose field
renderings agree except at exactly one position with different strings there
yield different `cache_data` strings (hence different keys up to digest
collision). Distinctness can only fail when the two differing field values
render to the same string, as None and the string None do. -/
theorem derive_deterministic_and_separating :
    (∀ (h : String → String) (p q : KeyParams),
      p.prompt = q.prompt → p.negative_prompt = q.negative_prompt →
      p.width = q.width → p.height = q.height →
      p.num_inference_steps = q.num_inference_steps →
      p.guidance_scale = q.guidance_scale → p.seed = q.seed →
      p.style = q.style → p.scheduler = q.scheduler →
      getCacheKey h p = getCacheKey h q) ∧
    (∀ p q : KeyParams, DiffOne (renders p) (renders q) →
      cacheData p ≠ cacheData q) := by
  constructor
  · intro h p q h1 h2 h3 h4 h5 h6 h7 h8 h9
    have : p = q := by cases p; cases q; simp_all
    rw [this]
  · intro p q hdiff
    exact joinU_diffOne hdiff

/-- Witness for the amended C8 theorem: determinism at the demo parameters,
and separation for two parameter sets differing only in the prompt. -/
theorem derive_deterministic_and_separating_witness :
    getCacheKey id keyParamsStyleNone = getCacheKey id keyParamsStyleNone ∧
    cacheData { keyParamsStyleNone with prompt := "a" } ≠
      cacheData { keyParamsStyleNone with prompt := "b" } := by
  refine ⟨derive_deterministic_and_separating.1 id _ _
    rfl rfl rfl rfl rfl rfl rfl rfl rfl,
    derive_deterministic_and_separating.2 _ _ ?_⟩
  exact ⟨[], "a", "b",
    [DEFAULT_NEGATIVE, "512", "512", "20", "7.5", "42", "None", "None"],
    by decide, by decide, by decide⟩

/-! Claim C3: generation failure handling in the worker. -/

/-- Claim C3 counterexample: a generation call that returns a dict with
success=false is recorded by the worker as Completed with that dict stored as
the result — the worker stores any returned value without inspecting it
(job_queue.py lines 52-54) and only a raised exception produces Failed. -/
theorem worker_marks_unsuccessful_return_completed :
    failPayload.success = false ∧
    (runJob 1 2 (Except.ok failPayload) (newJob "job-1" 0)).status = JStatus.completed ∧
    ¬ (runJob 1 2 (Except.ok failPayload) (newJob "job-1" 0)).status = JStatus.failed := by
  decide

/-- Claim C3 (amended): when the generation call raises, the worker marks the
job Failed, stores the stringified error and the finish time, and the failure
never propagates: the loop is total, processes every queued job in order, and
after any job — raising or not — continues with the rest of the queue. A call
that returns success=false is stored as a Completed job's result instead. -/
theorem worker_failure_containment :
    (∀ (t : Int) (items : List (Except String GenResult × Job GenResult)),
      (workerLoop t items).length = items.length) ∧
    (∀ (t : Int) (o : Except String GenResult) (j : Job GenResult)
      (rest : List (Except String GenResult × Job GenResult)),
      workerLoop t ((o, j) :: rest) = runJob t (t + 1) o j :: workerLoop (t + 2) rest) ∧
    (∀ (t1 t2 : Int) (e : String) (j : Job GenResult),
      (runJob t1 t2 (Except.error e) j).status = JStatus.failed ∧
      (runJob t1 t2 (Except.error e) j).error = some e ∧
      (runJob t1 t2 (Except.error e) j).finished_at = some t2) ∧
    (∀ (t1 t2 : Int) (v : GenResult) (j : Job GenResult),
      (runJob t1 t2 (Except.ok v) j).status = JStatus.completed ∧
      (runJob t1 t2 (Except.ok v) j).result = some v) := by
  refine ⟨?_, ?_, ?_, ?_⟩
  · intro t items
    induction items generalizing t with
    | nil => rfl
    | cons hd tl ih =>
      cases hd
      simp [workerLoop, ih]
  · intro t o j rest
    rfl
  · intro t1 t2 e j
    exact ⟨rfl, rfl, rfl⟩
  · intro t1 t2 v j
    exact ⟨rfl, rfl⟩

/-- Witness for the amended C3 theorem: a two-job queue whose first job raises
is fully processed, and the raising job ends Failed with its error stored. -/
theorem worker_failure_containment_witness :
    (workerLoop 0 [(Except.error "boom", newJob "j1" 0),
                   (Except.ok failPayload, newJob "j2" 0)]).length = 2 ∧
    (runJob 0 1 (Except.error "boom" : Except String GenResult) (newJob "j1" 0)).status
      = JStatus.failed :=
  ⟨worker_failure_containment.1 0 _,
   (worker_failure_containment.2.2.1 0 1 "boom" (newJob "j1" 0)).1⟩

/-! Claim C4: job lifecycle monotonicity. -/

theorem statusStep_rank_lt {a b : JStatus} (h : statusStep a b) :
    statusRank a < statusRank b := by
  cases h <;> decide

theorem reach_rank_le {a b : JStatus} (h : Relation.ReflTransGen statusStep a b) :
    statusRank a ≤ statusRank b := by
  induction h with
  | refl => exact le_rfl
  | tail _ hstep ih => exact le_trans ih (le_of_lt (statusStep_rank_lt hstep))

theorem reach_completed {b : JStatus}
    (h : Relation.ReflTransGen statusStep JStatus.completed b) :
    b = JStatus.completed := by
  induction h with
  | refl => rfl
  | tail _ hstep ih => cases ih ▸ hstep

theorem reach_failed {b : JStatus}
    (h : Relation.ReflTransGen statusStep JStatus.failed b) :
    b = JStatus.failed := by
  induction h with
  | refl => rfl
  | tail _ hstep ih => cases ih ▸ hstep

theorem polled_after_terminal {s : JStatus}
    (habs : ∀ b, Relation.ReflTransGen statusStep s b → b = s) :
    ∀ tr, PolledTrace (s :: tr) → ∀ x ∈ tr, x = s := by
  intro tr
  induction tr with
  | nil =>
    intro _ x hx
    cases hx
  | cons y tr ih =>
    intro hp x hx
    have hy : y = s := habs y (List.chain'_cons.mp hp).1
    subst hy
    rcases List.mem_cons.mp hx with h1 | h2
    · exact h1
    · exact ih (List.chain'_cons.mp hp).2 x h2

theorem polled_not_both_terminals :
    ∀ tr, PolledTrace tr → ¬ (JStatus.completed ∈ tr ∧ JStatus.failed ∈ tr) := by
  intro tr
  induction tr with
  | nil =>
    rintro _ ⟨hc, _⟩
    cases hc
  | cons a tr ih =>
    rintro hp ⟨hc, hf⟩
    by_cases hac : a = JStatus.completed
    · subst hac
      have hall := polled_after_terminal (fun b => reach_completed) tr hp
      rcases List.mem_cons.mp hf with h1 | h2
      · exact absurd h1 (by decide)
      · exact absurd (hall _ h2) (by decide)
    · by_cases haf : a = JStatus.failed
      · subst haf
        have hall := polled_after_terminal (fun b => reach_failed) tr hp
        rcases List.mem_cons.mp hc with h1 | h2
        · exact absurd h1 (by decide)
        · exact absurd (hall _ h2) (by decide)
      · have hc' : JStatus.completed ∈ tr := by
          rcases List.mem_cons.mp hc with h1 | h2
          · exact absurd h1.symm hac
          · exact h2
        have hf' : JStatus.failed ∈ tr := by
          rcases List.mem_cons.mp hf with h1 | h2
          · exact absurd h1.symm haf
          · exact h2
        exact ih hp.tail ⟨hc', hf'⟩

/-- Claim C4: the status history the worker gives a job is a path of the
transition relation the source performs; every status reachable from Pending
avoids Cancelled; no transition leaves Completed or Failed; and any status
sequence observable by repeated polling is monotone in the lifecycle order
Pending, Running, then a terminal status, and can never contain both
Completed and Failed. -/
theorem job_lifecycle_monotonicity :
    (∀ o : Except String GenResult, List.Chain' statusStep (jobStatusTrace o)) ∧
    (∀ s, Relation.ReflTransGen statusStep JStatus.pending s → s ≠ JStatus.cancelled) ∧
    (∀ s, Relation.ReflTransGen statusStep JStatus.completed s → s = JStatus.completed) ∧
    (∀ s, Relation.ReflTransGen statusStep JStatus.failed s → s = JStatus.failed) ∧
    (∀ tr, PolledTrace tr → List.Chain' (fun a b => statusRank a ≤ statusRank b) tr) ∧
    (∀ tr, PolledTrace tr → ¬ (JStatus.completed ∈ tr ∧ JStatus.failed ∈ tr)) := by
  refine ⟨?_, ?_, fun s h => reach_completed h, fun s h => reach_failed h, ?_,
    polled_not_both_terminals⟩
  · intro o
    cases o with
    | ok v =>
      exact List.chain'_cons.mpr ⟨statusStep.claim,
        List.chain'_cons.mpr ⟨statusStep.complete, by simp⟩⟩
    | error e =>
      exact List.chain'_cons.mpr ⟨statusStep.claim,
        List.chain'_cons.mpr ⟨statusStep.fail, by simp⟩⟩
  · intro s h
    induction h with
    | refl => decide
    | tail _ hstep ih => cases hstep <;> decide
  · intro tr hp
    exact hp.imp (fun a b hab => reach_rank_le hab)

/-- Witness for the C4 theorem: the polled sequence Pending, Running, Running,
Completed is monotone in the lifecycle order. -/
theorem job_lifecycle_monotonicity_witness :
    List.Chain' (fun a b => statusRank a ≤ statusRank b)
      [JStatus.pending, JStatus.running, JStatus.running, JStatus.completed] := by
  apply job_lifecycle_monotonicity.2.2.2.2.1
  exact List.chain'_cons.mpr ⟨Relation.ReflTransGen.single statusStep.claim,
    List.chain'_cons.mpr ⟨Relation.ReflTransGen.refl,
      List.chain'_cons.mpr ⟨Relation.ReflTransGen.single statusStep.complete, by simp⟩⟩⟩

/-! Claim C7: progress bounds and monotonicity. -/

theorem progressStates_eq (pcts : List Int) :
    progressStates pcts = 0 :: pcts.map progressUpdate := by
  unfold progressStates
  suffices h : ∀ (b : Int) (l : List Int),
      List.scanl (fun _ p => progressUpdate p) b l = b :: l.map progressUpdate from
    h 0 pcts
  intro b l
  induction l generalizing b with
  | nil => rfl
  | cons hd tl ih => rw [List.scanl, ih, List.map_cons]

/-- Claim C7 counterexample: the injected callback stores the clamp of the
latest pct with no memory of the previous value, so the invocation sequence
50 then 30 drives the recorded progress from 50 back down to 30 — the
recorded progress is not monotonically non-decreasing. -/
theorem progress_nonmonotone_counterexample :
    progressStates [50, 30] = [0, 50, 30] ∧
    ¬ List.Chain' (fun a b : Int => a ≤ b) (progressStates [50, 30]) := by
  have h1 : progressStates [50, 30] = [0, 50, 30] := rfl
  refine ⟨h1, fun hch => ?_⟩
  rw [h1] at hch
  have h2 := (List.chain'_cons.mp (List.chain'_cons.mp hch).2).1
  omega

/-- Claim C7 (amended): the recorded progress always lies between 0 and 100
inclusive — the callback clamps every reported pct — and after each invocation
it equals the clamp of that invocation's pct; in particular the recorded
progress is non-decreasing whenever the reported pct sequence is
non-decreasing. The callback itself enforces no monotonicity: a decreasing
in-range pct sequence decreases the recorded progress. -/
theorem progress_clamped_and_conditionally_monotone :
    (∀ pcts : List Int, ∀ x ∈ progressStates pcts, 0 ≤ x ∧ x ≤ 100) ∧
    (∀ pcts : List Int, progressStates pcts = 0 :: pcts.map progressUpdate) ∧
    (∀ pcts : List Int, List.Chain' (fun a b : Int => a ≤ b) pcts →
      List.Chain' (fun a b : Int => a ≤ b) (progressStates pcts)) := by
  have hb : ∀ p : Int, 0 ≤ progressUpdate p ∧ progressUpdate p ≤ 100 := by
    intro p
    unfold progressUpdate
    exact ⟨le_max_left 0 _, max_le (by norm_num) (min_le_left _ _)⟩
  have hmono : ∀ a b : Int, a ≤ b → progressUpdate a ≤ progressUpdate b := by
    intro a b h
    exact max_le_max le_rfl (min_le_min le_rfl h)
  refine ⟨?_, progressStates_eq, ?_⟩
  · intro pcts x hx
    rw [progressStates_eq] at hx
    rcases List.mem_cons.mp hx with h0 | hm
    · subst h0
      exact ⟨le_rfl, by norm_num⟩
    · rcases List.mem_map.mp hm with ⟨p, _, hpx⟩
      subst hpx
      exact hb p
  · intro pcts hch
    rw [progressStates_eq]
    cases pcts with
    | nil => simp
    | cons hd tl =>
      rw [List.map_cons]
      refine List.chain'_cons.mpr ⟨(hb hd).1, ?_⟩
      rw [← List.map_cons, List.chain'_map]
      exact hch.imp (fun a b hab => hmono a b hab)

/-- Witness for the amended C7 theorem: the invocation sequence 10, 20 keeps
progress in bounds and non-decreasing. -/
theorem progress_clamped_witness :
    ((0 : Int) ≤ 20 ∧ (20 : Int) ≤ 100) ∧
    List.Chain' (fun a b : Int => a ≤ b) (progressStates [10, 20]) :=
  ⟨progress_clamped_and_conditionally_monotone.1 [10, 20] 20 (by decide),
   progress_clamped_and_conditionally_monotone.2.2 [10, 20]
     (List.chain'_cons.mpr ⟨by norm_num, by simp⟩)⟩

/-! Claim C9: status lookup for unknown and submitted ids. -/

theorem lookup_update_of_mem {V : Type} {m : List (String × V)} {k : String} (v : V)
    (hmem : k ∈ m.map Prod.fst) :
    (m.map (fun kv => if kv.1 = k then (k, v) else kv)).lookup k = some v := by
  induction m with
  | nil => cases hmem
  | cons hd tl ih =>
    by_cases hk : hd.1 = k
    · rw [List.map_cons, if_pos hk]
      simp [List.lookup]
    · rw [List.map_cons, if_neg hk]
      have hmem' : k ∈ tl.map Prod.fst := by
        rcases List.mem_cons.mp (show k ∈ hd.1 :: tl.map Prod.fst from hmem) with h1 | h2
        · exact absurd h1.symm hk
        · exact h2
      have hbeq : (k == hd.1) = false := beq_eq_false_iff_ne.mpr (fun e => hk e.symm)
      simp only [List.lookup, hbeq]
      exact ih hmem'

theorem append_lookup_fresh {V : Type} {m : List (String × V)} {k : String} (v : V)
    (h : k ∉ m.map Prod.fst) : (m ++ [(k, v)]).lookup k = some v := by
  induction m with
  | nil => simp [List.lookup]
  | cons hd tl ih =>
    simp only [List.map_cons, List.mem_cons] at h
    push_neg at h
    have hbeq : (k == hd.1) = false := beq_eq_false_iff_ne.mpr h.1
    simp only [List.cons_append, List.lookup, hbeq]
    exact ih h.2

theorem pyDictSet_lookup_self {V : Type} (m : List (String × V)) (k : String) (v : V) :
    (pyDictSet m k v).lookup k = some v := by
  unfold pyDictSet
  by_cases hc : ((m.map Prod.fst).contains k : Bool)
  · rw [if_pos hc]
    exact lookup_update_of_mem v (List.elem_iff.mp hc)
  · rw [if_neg hc]
    exact append_lookup_fresh v (fun hmem => hc (List.elem_eq_true_of_mem hmem))

/-- Claim C9: for an id never returned by submit, status yields the distinct
not-found outcome (None), which is never a snapshot — in particular never a
Failed snapshot; and for an id returned by submit, status yields the snapshot
of exactly that job's fields. -/
theorem status_not_found_and_snapshot :
    (∀ (jobs : JobMap GenResult) (id : String),
      id ∉ jobs.map Prod.fst → queueStatus jobs id = none) ∧
    (∀ (jobs : JobMap GenResult) (id : String) (snap : JobSnapshot GenResult),
      id ∉ jobs.map Prod.fst → queueStatus jobs id ≠ some snap) ∧
    (∀ (jobs : JobMap GenResult) (j : Job GenResult),
      queueStatus (submitJob jobs j).2 (submitJob jobs j).1 =
        some { id := j.id, status := j.status, progress := j.progress_pct,
               result := j.result, error := j.error, created_at := j.created_at,
               started_at := j.started_at, finished_at := j.finished_at }) := by
  have hnone : ∀ (jobs : JobMap GenResult) (id : String),
      id ∉ jobs.map Prod.fst → queueStatus jobs id = none := by
    intro jobs id h
    unfold queueStatus pyDictGet?
    rw [lookup_eq_none_of_not_mem h]
    rfl
  refine ⟨hnone, ?_, ?_⟩
  · intro jobs id snap h hcontra
    rw [hnone jobs id h] at hcontra
    cases hcontra
  · intro jobs j
    unfold queueStatus submitJob pyDictGet?
    rw [pyDictSet_lookup_self]
    rfl

/-- Witness for the C9 theorem: an unknown id on the empty map yields None,
and a freshly submitted pending job is found with its snapshot. -/
theorem status_not_found_and_snapshot_witness :
    queueStatus ([] : JobMap GenResult) "nonexistent-id" = none ∧
    queueStatus (submitJob ([] : JobMap GenResult) (newJob "j1" 0)).2 "j1" =
      some { id := "j1", status := JStatus.pending, progress := 0, result := none,
             error := none, created_at := 0, started_at := none, finished_at := none } :=
  ⟨status_not_found_and_snapshot.1 [] "nonexistent-id" (by decide),
   status_not_found_and_snapshot.2.2 [] (newJob "j1" 0)⟩

end LexiGraph
